import Mathlib

/-!
Verification of the C HTTP JSON API server (router.c, handlers.c, utils.c)
against its natural-language specification.

The embedding models URIs, HTTP methods and C strings as Lean lists of
characters (one character per byte; every string the claims exercise is
ASCII), C ints and longs as mathematical integers checked against the
explicit INT_MIN/INT_MAX/LONG_MIN/LONG_MAX bounds exactly where the code
checks them, and the process-wide item store (the items array together
with item_count and next_item_id from handlers.c) as an explicit state
record threaded through the handler functions.

The Mongoose networking library (mongoose.c) and the cJSON library
(cJSON.c) are listed in the Makefile but are not part of the sources
available here; where their behavior matters it is modelled from the
specification, as marked on the individual definitions.
-/

/-- MAX_ITEMS from handlers.c: capacity of the in-memory item array. -/
def MAX_ITEMS : Nat := 100

/-- INT_MAX for the 32-bit C int used for item ids. -/
def INT_MAX : Int := 2 ^ 31 - 1

/-- INT_MIN for the 32-bit C int used for item ids. -/
def INT_MIN : Int := -(2 ^ 31)

/-- LONG_MAX for the 64-bit C long returned by strtol. -/
def LONG_MAX : Int := 2 ^ 63 - 1

/-- LONG_MIN for the 64-bit C long returned by strtol. -/
def LONG_MIN : Int := -(2 ^ 63)

/-- The C isspace characters skipped by strtol before the number. -/
def isSpaceChar (c : Char) : Bool :=
  c == ' ' || c == '\t' || c == '\n' || c == '\x0b' || c == '\x0c' || c == '\r'

/-- Numeric value of a decimal digit character. -/
def digitVal (c : Char) : Int := Int.ofNat (c.toNat - '0'.toNat)

/-- Accumulating base-10 value of a digit string, as strtol accumulates it. -/
def digitsVal : List Char → Int → Int
  | [], acc => acc
  | c :: rest, acc => digitsVal rest (acc * 10 + digitVal c)

/-- strtol clamps an out-of-range value to LONG_MAX or LONG_MIN. -/
def clampLong (v : Int) : Int :=
  if v > LONG_MAX then LONG_MAX else if v < LONG_MIN then LONG_MIN else v

/-- Optional leading sign of a strtol subject: the sign factor and the rest. -/
def splitSign : List Char → Int × List Char
  | [] => (1, [])
  | c :: rest =>
    if c = '-' then (-1, rest) else if c = '+' then (1, rest) else (1, c :: rest)

/-- Model of C strtol with base 10 (from the C standard library contract):
skips leading whitespace, consumes an optional sign and then a maximal run
of decimal digits, and returns the (clamped) value together with the number
of characters consumed; a count of 0 models endptr being left at the start
of the subject because no digits were found. -/
def strtol10 (s : List Char) : Int × Nat :=
  let ws := s.takeWhile isSpaceChar
  let r := s.dropWhile isSpaceChar
  let sd := splitSign r
  let ds := sd.2.takeWhile Char.isDigit
  if ds = [] then (0, 0)
  else (clampLong (sd.1 * digitsVal ds 0), ws.length + (r.length - sd.2.length) + ds.length)

/-- The route prefix "/api/v1/items/" used by the by-id handlers. -/
def pfxItems : List Char := "/api/v1/items/".data

/-- Embeds get_item_id_from_uri from handlers.c: checks that the URI is
strictly longer than the prefix and begins with it, rejects remainders of
32 bytes or more (the id_str_buf bound), runs strtol base 10 on the
remainder, and rejects when no digits were consumed, when characters
remain after the number, or when the value is outside int range; -1 is the
in-band failure sentinel. The mg_vcmp prefix test is modelled from the
spec (mongoose.c is listed in the Makefile but absent): per spec section
4.2 it verifies that the path begins with the exact literal prefix. -/
def get_item_id_from_uri (uri : List Char) : Int :=
  if pfxItems.length < uri.length ∧ pfxItems.isPrefixOf uri then
    let idStr := uri.drop pfxItems.length
    if 32 ≤ idStr.length then -1
    else
      let r := strtol10 idStr
      if r.2 = 0 ∨ r.2 ≠ idStr.length ∨ r.1 < INT_MIN ∨ INT_MAX < r.1 then -1
      else r.1
  else -1

/-- Modelled from the spec: a cJSON value tree, the result of a successful
parse by the absent cJSON.c ("parse(bytes) -> tree or failure", spec
section 6). JSON numbers are modelled as the integers to which the code
coerces them (spec section 6: "value (number, ..., coerced to integer)"). -/
inductive Json where
  | jnull : Json
  | jbool : Bool → Json
  | jnum : Int → Json
  | jstr : List Char → Json
  | jarr : List Json → Json
  | jobj : List (List Char × Json) → Json

/-- Modelled from the spec: cJSON_GetObjectItemCaseSensitive from the
absent cJSON.c, one of the "typed accessors" of spec section 6. On an
object it returns the first field with exactly the given name; on any
other value it finds nothing. -/
def getObjectItemCS (j : Json) (key : List Char) : Option Json :=
  match j with
  | .jobj fields => (fields.find? (fun f => f.1 == key)).map (fun f => f.2)
  | _ => none

/-- Modelled from the spec: cJSON_IsString (a typed accessor of spec
section 6), applied to a possibly-NULL node pointer. -/
def cJSON_IsStringN : Option Json → Bool
  | some (.jstr _) => true
  | _ => false

/-- Modelled from the spec: cJSON_IsNumber (a typed accessor of spec
section 6), applied to a possibly-NULL node pointer. -/
def cJSON_IsNumberN : Option Json → Bool
  | some (.jnum _) => true
  | _ => false

/-- The valuestring of a string node (meaningful only when cJSON_IsStringN). -/
def getStrVal : Option Json → List Char
  | some (.jstr s) => s
  | _ => []

/-- The numeric value of a number node (meaningful only when cJSON_IsNumberN). -/
def getNumVal : Option Json → Int
  | some (.jnum n) => n
  | _ => 0

/-- item_t from handlers.c: id, fixed-size name buffer, value. The name is
modelled as its byte content (at most 63 bytes plus the terminator in C). -/
structure item_t where
  id : Int
  name : List Char
  value : Int
deriving DecidableEq

/-- The process-wide store state of handlers.c: the live slice
items[0..item_count) of the items array, and the next_item_id counter. -/
structure StoreState where
  items : List item_t
  next_item_id : Int
deriving DecidableEq

/-- The JSON object the handlers build for one item. -/
def itemJson (it : item_t) : Json :=
  .jobj [("id".data, .jnum it.id), ("name".data, .jstr it.name), ("value".data, .jnum it.value)]

/-- The observable response of a handler: send_json_response with a literal
string body, send_json_response with a cJSON-built body, or
send_error_response with a status, short label and message. -/
inductive HttpResponse where
  | jsonLit : Nat → String → HttpResponse
  | jsonTree : Nat → Json → HttpResponse
  | errorResp : Nat → String → String → HttpResponse

/-- Embeds init_dummy_data from handlers.c: when the store is empty, append
"First Item" and "Second Item" (each append guarded by the capacity check,
each consuming one id from next_item_id); otherwise do nothing. -/
def init_dummy_data (s : StoreState) : StoreState :=
  if s.items.length = 0 then
    let s1 :=
      if s.items.length < MAX_ITEMS then
        ⟨s.items ++ [⟨s.next_item_id, "First Item".data, 100⟩], s.next_item_id + 1⟩
      else s
    if s1.items.length < MAX_ITEMS then
      ⟨s1.items ++ [⟨s1.next_item_id, "Second Item".data, 200⟩], s1.next_item_id + 1⟩
    else s1
  else s

/-- Embeds find_item_by_id from handlers.c: forward linear scan returning
the first item with the given id. -/
def find_item_by_id (id : Int) : List item_t → Option item_t
  | [] => none
  | it :: rest => if it.id = id then some it else find_item_by_id id rest

/-- The forward index scan used by handle_delete_item (and, through the
returned pointer, by handle_update_item): index of the first item with the
given id. -/
def find_item_index (id : Int) : List item_t → Option Nat
  | [] => none
  | it :: rest => if it.id = id then some 0 else (find_item_index id rest).map (fun i => i + 1)

/-- Embeds handle_root from handlers.c. -/
def handle_root (s : StoreState) : HttpResponse × StoreState :=
  (.jsonLit 200 "\x7b \"message\": \"Welcome to the C API Backend! Navigate to /api/v1/items for data.\" \x7d", s)

/-- Embeds handle_get_all_items from handlers.c: seed if empty, then return
all items as a JSON array (allocation-failure branches of cJSON are
modelled as not taken, per the collaborator contract of spec section 6). -/
def handle_get_all_items (s : StoreState) : HttpResponse × StoreState :=
  let s1 := init_dummy_data s
  (.jsonTree 200 (.jobj [("items".data, .jarr (s1.items.map itemJson))]), s1)

/-- Embeds handle_get_item_by_id from handlers.c. -/
def handle_get_item_by_id (uri : List Char) (s : StoreState) : HttpResponse × StoreState :=
  let s1 := init_dummy_data s
  let item_id := get_item_id_from_uri uri
  if item_id = -1 then
    (.errorResp 400 "Bad Request" "Invalid or missing item ID in URI. Expected format: /api/v1/items/\x7bid\x7d", s1)
  else
    match find_item_by_id item_id s1.items with
    | none => (.errorResp 404 "Not Found" "Item with specified ID not found.", s1)
    | some it => (.jsonTree 200 (itemJson it), s1)

/-- Embeds handle_create_item from handlers.c. The request body is the
result of cJSON_ParseWithLength on the transport body, modelled from the
spec (section 6: "parse(bytes) -> tree or failure") as an optional tree:
none for any unparseable body. -/
def handle_create_item (body : Option Json) (s : StoreState) : HttpResponse × StoreState :=
  let s1 := init_dummy_data s
  if MAX_ITEMS ≤ s1.items.length then
    (.errorResp 507 "Insufficient Storage" "Cannot create more items, in-memory storage limit reached.", s1)
  else
    match body with
    | none => (.errorResp 400 "Bad Request" "Invalid JSON format in request body.", s1)
    | some j =>
      let name_obj := getObjectItemCS j "name".data
      let value_obj := getObjectItemCS j "value".data
      if !(cJSON_IsStringN name_obj) || !(cJSON_IsNumberN value_obj) then
        (.errorResp 400 "Bad Request" "Missing or invalid \x27name\x27 (string) or \x27value\x27 (number) in JSON body.", s1)
      else if 64 ≤ (getStrVal name_obj).length then
        (.errorResp 400 "Bad Request" "Item name provided is too long (max 63 characters).", s1)
      else
        let new_item : item_t := ⟨s1.next_item_id, getStrVal name_obj, getNumVal value_obj⟩
        (.jsonTree 201 (itemJson new_item), ⟨s1.items ++ [new_item], s1.next_item_id + 1⟩)

/-- The part of handle_update_item after the id has been extracted: find
the item, parse checks, update the supplied well-typed fields in place
(name first, with its length check rejecting before any mutation). -/
def update_item_core (item_id : Int) (body : Option Json) (s : StoreState) : HttpResponse × StoreState :=
  match find_item_index item_id s.items with
  | none => (.errorResp 404 "Not Found" "Item with specified ID not found for update.", s)
  | some i =>
    match body with
    | none => (.errorResp 400 "Bad Request" "Invalid JSON format in request body for update.", s)
    | some j =>
      let it := s.items.getD i ⟨0, [], 0⟩
      let name_obj := getObjectItemCS j "name".data
      let value_obj := getObjectItemCS j "value".data
      if cJSON_IsStringN name_obj ∧ 64 ≤ (getStrVal name_obj).length then
        (.errorResp 400 "Bad Request" "Updated item name too long (max 63 characters).", s)
      else
        let it1 := if cJSON_IsStringN name_obj then (⟨it.id, getStrVal name_obj, it.value⟩ : item_t) else it
        let it2 := if cJSON_IsNumberN value_obj then (⟨it1.id, it1.name, getNumVal value_obj⟩ : item_t) else it1
        (.jsonTree 200 (itemJson it2), ⟨s.items.set i it2, s.next_item_id⟩)

/-- Embeds handle_update_item from handlers.c. -/
def handle_update_item (uri : List Char) (body : Option Json) (s : StoreState) : HttpResponse × StoreState :=
  let s1 := init_dummy_data s
  let item_id := get_item_id_from_uri uri
  if item_id = -1 then
    (.errorResp 400 "Bad Request" "Invalid or missing item ID in URI. Expected format: /api/v1/items/\x7bid\x7d", s1)
  else update_item_core item_id body s1

/-- The part of handle_delete_item after the id has been extracted: find the
index of the item and remove it by shifting all later entries one position
earlier (List.eraseIdx is exactly that shift loop plus the count decrement). -/
def delete_item_core (item_id : Int) (s : StoreState) : HttpResponse × StoreState :=
  match find_item_index item_id s.items with
  | none => (.errorResp 404 "Not Found" "Item with specified ID not found for deletion.", s)
  | some i =>
    (.jsonLit 200 "\x7b \"message\": \"Item deleted successfully.\" \x7d", ⟨s.items.eraseIdx i, s.next_item_id⟩)

/-- Embeds handle_delete_item from handlers.c. -/
def handle_delete_item (uri : List Char) (s : StoreState) : HttpResponse × StoreState :=
  let s1 := init_dummy_data s
  let item_id := get_item_id_from_uri uri
  if item_id = -1 then
    (.errorResp 400 "Bad Request" "Invalid or missing item ID in URI. Expected format: /api/v1/items/\x7bid\x7d", s1)
  else delete_item_core item_id s1

/-- Identifies which handler function a route points at. -/
inductive HandlerId where
  | root | getAllItems | getItemById | createItem | updateItem | deleteItem
deriving DecidableEq

/-- route_t from router.h: method, URI pattern (the uri_prefix field),
exact-match flag, handler. -/
structure route_t where
  method : List Char
  uriPat : List Char
  exact_match : Bool
  handler : HandlerId
deriving DecidableEq

/-- The static ordered route table from router.c. -/
def routes : List route_t :=
  [⟨"GET".data, "/api/v1/items".data, true, .getAllItems⟩,
   ⟨"POST".data, "/api/v1/items".data, true, .createItem⟩,
   ⟨"GET".data, "/api/v1/items/".data, false, .getItemById⟩,
   ⟨"PUT".data, "/api/v1/items/".data, false, .updateItem⟩,
   ⟨"DELETE".data, "/api/v1/items/".data, false, .deleteItem⟩,
   ⟨"GET".data, "/".data, true, .root⟩]

/-- The URI test of one route in router_dispatch. The mg_vcmp comparison is
modelled from the spec (mongoose.c is listed in the Makefile but absent):
per spec section 4.3, exact mode requires the path to equal the pattern and
prefix mode requires the path to start with the pattern; the separate
length guard of the prefix branch in router.c is kept. -/
def routeMatches (r : route_t) (uri : List Char) : Bool :=
  if r.exact_match then uri == r.uriPat
  else decide (r.uriPat.length ≤ uri.length) && r.uriPat.isPrefixOf uri

/-- Outcome of router_dispatch: a handler was invoked, or the fall-through
404 path was taken. -/
inductive DispatchResult where
  | handled : HandlerId → DispatchResult
  | notFound : DispatchResult
deriving DecidableEq

/-- The route-table loop of router_dispatch: methods compared as C strings,
then the URI test per the route's mode; first match wins. -/
def dispatchLoop (m u : List Char) : List route_t → DispatchResult
  | [] => .notFound
  | r :: rest =>
    if r.method = m then
      if routeMatches r u then .handled r.handler else dispatchLoop m u rest
    else dispatchLoop m u rest

/-- Embeds router_dispatch from router.c. -/
def router_dispatch (m u : List Char) : DispatchResult := dispatchLoop m u routes

/-- Applies the handler a route points at, as router_dispatch does through
the function pointer. -/
def applyHandler (h : HandlerId) (uri : List Char) (body : Option Json) (s : StoreState) :
    HttpResponse × StoreState :=
  match h with
  | .root => handle_root s
  | .getAllItems => handle_get_all_items s
  | .createItem => handle_create_item body s
  | .getItemById => handle_get_item_by_id uri s
  | .updateItem => handle_update_item uri body s
  | .deleteItem => handle_delete_item uri s

/-- One full request through router_dispatch: the selected handler runs, or
the dispatcher emits the standard 404 error envelope. -/
def serverStep (m uri : List Char) (body : Option Json) (s : StoreState) :
    HttpResponse × StoreState :=
  match router_dispatch m uri with
  | .handled h => applyHandler h uri body s
  | .notFound =>
    (.errorResp 404 "Not Found" "The requested resource or endpoint was not found on this server.", s)

/-- The store invariants of spec section 3: bounded size, pairwise distinct
ids among live items, and every live id strictly below the next-id counter. -/
def storeInv (s : StoreState) : Prop :=
  s.items.length ≤ MAX_ITEMS ∧
  (s.items.map item_t.id).Nodup ∧
  ∀ it ∈ s.items, it.id < s.next_item_id

/-- Written from the words of the specification and of claim C2, for
comparison with get_item_id_from_uri: the remainder, after the whitespace
strtol skips, must be an optional sign followed by one or more digits and
nothing else, and the resulting base-10 value must fit the int range. -/
def claimedIdOfRemainder (rem : List Char) : Option Int :=
  let sd := splitSign (rem.dropWhile isSpaceChar)
  if sd.2 ≠ [] ∧ sd.2.all Char.isDigit then
    let v := sd.1 * digitsVal sd.2 0
    if INT_MIN ≤ v ∧ v ≤ INT_MAX then some v else none
  else none

/-- The request body of a well-formed create request, as parsed by cJSON. -/
def createBody (nm : List Char) (v : Int) : Json :=
  .jobj [("name".data, .jstr nm), ("value".data, .jnum v)]

/-- A sequence of create requests run one after another through
handle_create_item, collecting the responses. -/
def createSeq : List (List Char × Int) → StoreState → List HttpResponse × StoreState
  | [], s => ([], s)
  | (nm, v) :: rest, s =>
    let r := handle_create_item (some (createBody nm v)) s
    let r2 := createSeq rest r.2
    (r.1 :: r2.1, r2.2)

/-- The responses a run of successful creates is expected to produce when
the next-id counter starts at n0. -/
def expectedCreated (n0 : Int) : List (List Char × Int) → List HttpResponse
  | [] => []
  | (nm, v) :: rest => .jsonTree 201 (itemJson ⟨n0, nm, v⟩) :: expectedCreated (n0 + 1) rest

/-- The id field of a 201 created-item response (itemJson puts id first). -/
def createdId : HttpResponse → Int
  | .jsonTree _ (.jobj ((_, .jnum i) :: _)) => i
  | _ => 0

/-- The store just after lazy seeding of an empty store with fresh ids 1, 2. -/
def seededStore : StoreState :=
  ⟨[⟨1, "First Item".data, 100⟩, ⟨2, "Second Item".data, 200⟩], 3⟩

/-- A store at full capacity: 100 items with ids 1..100. -/
def fullStore : StoreState :=
  ⟨(List.range MAX_ITEMS).map (fun i => ⟨Int.ofNat i + 1, [], 0⟩), 101⟩

/-! ### Helper lemmas: strtol and the identifier extractor -/

theorem length_takeWhile_add_dropWhile (p : Char → Bool) (l : List Char) :
    (l.takeWhile p).length + (l.dropWhile p).length = l.length := by
  rw [← List.length_append, List.takeWhile_append_dropWhile]

theorem splitSign_snd_length_le (r : List Char) : (splitSign r).2.length ≤ r.length := by
  cases r with
  | nil => simp [splitSign]
  | cons c rest => simp only [splitSign]; split_ifs <;> simp

theorem clampLong_out_iff (v : Int) :
    (clampLong v < INT_MIN ∨ INT_MAX < clampLong v) ↔ (v < INT_MIN ∨ INT_MAX < v) := by
  have h31 : (2 : Int) ^ 31 = 2147483648 := by norm_num
  have h63 : (2 : Int) ^ 63 = 9223372036854775808 := by norm_num
  simp only [clampLong, INT_MIN, INT_MAX, LONG_MIN, LONG_MAX, h31, h63]
  split_ifs <;> omega

theorem clampLong_eq_of_range (v : Int) (h1 : INT_MIN ≤ v) (h2 : v ≤ INT_MAX) :
    clampLong v = v := by
  have h31 : (2 : Int) ^ 31 = 2147483648 := by norm_num
  have h63 : (2 : Int) ^ 63 = 9223372036854775808 := by norm_num
  simp only [INT_MIN, INT_MAX, h31] at h1 h2
  simp only [clampLong, LONG_MIN, LONG_MAX, h63]
  split_ifs <;> omega

theorem strtol10_eq (rem : List Char) :
    strtol10 rem =
      if (splitSign (rem.dropWhile isSpaceChar)).2.takeWhile Char.isDigit = [] then ((0 : Int), (0 : Nat))
      else
        (clampLong ((splitSign (rem.dropWhile isSpaceChar)).1 *
            digitsVal ((splitSign (rem.dropWhile isSpaceChar)).2.takeWhile Char.isDigit) 0),
          (rem.takeWhile isSpaceChar).length +
            ((rem.dropWhile isSpaceChar).length - (splitSign (rem.dropWhile isSpaceChar)).2.length) +
            ((splitSign (rem.dropWhile isSpaceChar)).2.takeWhile Char.isDigit).length) := rfl

theorem strtol_check_eq_claimed (rem : List Char) :
    (if (strtol10 rem).2 = 0 ∨ (strtol10 rem).2 ≠ rem.length ∨
        (strtol10 rem).1 < INT_MIN ∨ INT_MAX < (strtol10 rem).1
     then (-1 : Int) else (strtol10 rem).1)
    = (claimedIdOfRemainder rem).getD (-1) := by
  have hlen := length_takeWhile_add_dropWhile isSpaceChar rem
  have hsl := splitSign_snd_length_le (rem.dropWhile isSpaceChar)
  by_cases hd : (splitSign (rem.dropWhile isSpaceChar)).2.takeWhile Char.isDigit = []
  · have h1 : strtol10 rem = (0, 0) := by rw [strtol10_eq, if_pos hd]
    have hclaim : claimedIdOfRemainder rem = none := by
      unfold claimedIdOfRemainder
      rw [if_neg]
      intro hcontra
      apply hcontra.1
      rw [← List.takeWhile_eq_self_iff.2 (List.all_eq_true.1 hcontra.2), hd]
    rw [h1, hclaim]
    simp
  · by_cases hall : (splitSign (rem.dropWhile isSpaceChar)).2.all Char.isDigit = true
    · have hds : (splitSign (rem.dropWhile isSpaceChar)).2.takeWhile Char.isDigit
          = (splitSign (rem.dropWhile isSpaceChar)).2 :=
        List.takeWhile_eq_self_iff.2 (List.all_eq_true.1 hall)
      have hsne : (splitSign (rem.dropWhile isSpaceChar)).2 ≠ [] := fun h0 => hd (by rw [hds, h0])
      have hspos : 0 < (splitSign (rem.dropWhile isSpaceChar)).2.length :=
        List.length_pos.2 hsne
      have h1 : strtol10 rem =
          (clampLong ((splitSign (rem.dropWhile isSpaceChar)).1 *
            digitsVal (splitSign (rem.dropWhile isSpaceChar)).2 0), rem.length) := by
        rw [strtol10_eq, if_neg hd, hds]
        have : (rem.takeWhile isSpaceChar).length +
            ((rem.dropWhile isSpaceChar).length - (splitSign (rem.dropWhile isSpaceChar)).2.length) +
            (splitSign (rem.dropWhile isSpaceChar)).2.length = rem.length := by omega
        rw [this]
      have hclaim : claimedIdOfRemainder rem =
          if INT_MIN ≤ (splitSign (rem.dropWhile isSpaceChar)).1 *
                digitsVal (splitSign (rem.dropWhile isSpaceChar)).2 0 ∧
              (splitSign (rem.dropWhile isSpaceChar)).1 *
                digitsVal (splitSign (rem.dropWhile isSpaceChar)).2 0 ≤ INT_MAX
          then some ((splitSign (rem.dropWhile isSpaceChar)).1 *
                digitsVal (splitSign (rem.dropWhile isSpaceChar)).2 0)
          else none := by
        unfold claimedIdOfRemainder
        rw [if_pos ⟨hsne, hall⟩]
      rw [h1, hclaim]
      have hremne : rem.length ≠ 0 := by omega
      by_cases hrange : INT_MIN ≤ (splitSign (rem.dropWhile isSpaceChar)).1 *
            digitsVal (splitSign (rem.dropWhile isSpaceChar)).2 0 ∧
          (splitSign (rem.dropWhile isSpaceChar)).1 *
            digitsVal (splitSign (rem.dropWhile isSpaceChar)).2 0 ≤ INT_MAX
      · rw [if_pos hrange, clampLong_eq_of_range _ hrange.1 hrange.2, if_neg]
        · rfl
        · push_neg
          exact ⟨hremne, rfl, hrange.1, hrange.2⟩
      · rw [if_neg hrange, if_pos]
        · rfl
        · right; right
          rw [not_and_or] at hrange
          rcases hrange with h | h
          · exact (clampLong_out_iff _).2 (Or.inl (by omega))
          · exact (clampLong_out_iff _).2 (Or.inr (by omega))
    · have hlt : ((splitSign (rem.dropWhile isSpaceChar)).2.takeWhile Char.isDigit).length ≠
          (splitSign (rem.dropWhile isSpaceChar)).2.length := by
        intro heq
        exact hall (List.all_eq_true.2 (List.takeWhile_eq_self_iff.1
          ((List.takeWhile_prefix Char.isDigit).eq_of_length heq)))
      have htle : ((splitSign (rem.dropWhile isSpaceChar)).2.takeWhile Char.isDigit).length ≤
          (splitSign (rem.dropWhile isSpaceChar)).2.length :=
        (List.takeWhile_prefix Char.isDigit).length_le
      have h1 : strtol10 rem =
          (clampLong ((splitSign (rem.dropWhile isSpaceChar)).1 *
            digitsVal ((splitSign (rem.dropWhile isSpaceChar)).2.takeWhile Char.isDigit) 0),
            (rem.takeWhile isSpaceChar).length +
              ((rem.dropWhile isSpaceChar).length - (splitSign (rem.dropWhile isSpaceChar)).2.length) +
              ((splitSign (rem.dropWhile isSpaceChar)).2.takeWhile Char.isDigit).length) := by
        rw [strtol10_eq, if_neg hd]
      have hclaim : claimedIdOfRemainder rem = none := by
        unfold claimedIdOfRemainder
        rw [if_neg]
        intro hcontra
        exact hall hcontra.2
      rw [h1, hclaim, if_pos]
      · rfl
      · right; left; omega

theorem get_id_characterization (uri : List Char) :
    get_item_id_from_uri uri =
      if pfxItems.length < uri.length ∧ pfxItems.isPrefixOf uri ∧
          uri.length - pfxItems.length < 32 then
        (claimedIdOfRemainder (uri.drop pfxItems.length)).getD (-1)
      else -1 := by
  simp only [get_item_id_from_uri]
  by_cases h1 : pfxItems.length < uri.length ∧ pfxItems.isPrefixOf uri
  · rw [if_pos h1]
    by_cases h2 : 32 ≤ (uri.drop pfxItems.length).length
    · rw [if_pos h2, if_neg]
      intro hc
      rw [List.length_drop] at h2
      exact absurd hc.2.2 (not_lt.2 h2)
    · rw [if_neg h2]
      have h3 : pfxItems.length < uri.length ∧ (pfxItems.isPrefixOf uri) = true ∧
          uri.length - pfxItems.length < 32 := by
        refine ⟨h1.1, h1.2, ?_⟩
        rw [List.length_drop] at h2
        omega
      rw [if_pos h3]
      exact strtol_check_eq_claimed (uri.drop pfxItems.length)
  · rw [if_neg h1, if_neg]
    intro hc
    exact h1 ⟨hc.1, hc.2.1⟩

/-! ### Helper lemmas: the route dispatcher -/

theorem dispatchLoop_eq_find (m u : List Char) (rs : List route_t) :
    dispatchLoop m u rs =
      ((rs.find? (fun r => r.method == m && routeMatches r u)).map
        (fun r => DispatchResult.handled r.handler)).getD .notFound := by
  induction rs with
  | nil => rfl
  | cons r rest ih =>
    by_cases hm : r.method = m
    · by_cases hr : routeMatches r u = true
      · have hp : (r.method == m && routeMatches r u) = true := by simp [hm, hr]
        simp [dispatchLoop, hm, hr, List.find?_cons, hp]
      · have hp : (r.method == m && routeMatches r u) = false := by simp [hr]
        simp [dispatchLoop, hm, hr, List.find?_cons, hp, ih]
    · have hp : (r.method == m && routeMatches r u) = false := by simp [hm]
      simp [dispatchLoop, hm, List.find?_cons, hp, ih]

theorem router_dispatch_no_match (m u : List Char)
    (h : ∀ r ∈ routes, ¬(r.method = m ∧ routeMatches r u = true)) :
    router_dispatch m u = .notFound := by
  rw [router_dispatch, dispatchLoop_eq_find]
  have hfind : routes.find? (fun r => r.method == m && routeMatches r u) = none := by
    rw [List.find?_eq_none]
    intro r hr hcontra
    rw [Bool.and_eq_true, beq_iff_eq] at hcontra
    exact h r hr hcontra
  rw [hfind]
  rfl

/-! ### Claim theorems C1 and C2 -/

/-- C1: the dispatcher evaluates the static route table in order and invokes
the handler of the first route whose method equals the request method and
whose path matches per the route's mode; GET /api/v1/items invokes the
exact-match collection handler handle_get_all_items (not the
identifier-prefix handler); and a request matching no route (unknown path
or unknown method) receives the standard 404 error envelope. -/
theorem C1_dispatch_first_match :
    (∀ m u : List Char, router_dispatch m u =
        ((routes.find? (fun r => r.method == m && routeMatches r u)).map
          (fun r => DispatchResult.handled r.handler)).getD .notFound) ∧
    router_dispatch "GET".data "/api/v1/items".data = .handled .getAllItems ∧
    (∀ b s, serverStep "GET".data "/api/v1/items".data b s = handle_get_all_items s) ∧
    (∀ (m u : List Char) (b : Option Json) (s : StoreState),
      (∀ r ∈ routes, ¬(r.method = m ∧ routeMatches r u = true)) →
      serverStep m u b s =
        (.errorResp 404 "Not Found"
          "The requested resource or endpoint was not found on this server.", s)) ∧
    (∀ b s, serverStep "GET".data "/api/v1/unknown".data b s =
        (.errorResp 404 "Not Found"
          "The requested resource or endpoint was not found on this server.", s)) ∧
    (∀ b s, serverStep "PATCH".data "/api/v1/items".data b s =
        (.errorResp 404 "Not Found"
          "The requested resource or endpoint was not found on this server.", s)) := by
  refine ⟨fun m u => dispatchLoop_eq_find m u routes, by decide, ?_, ?_, ?_, ?_⟩
  · intro b s
    have hd : router_dispatch "GET".data "/api/v1/items".data = .handled .getAllItems := by decide
    rw [serverStep, hd]
    rfl
  · intro m u b s h
    rw [serverStep, router_dispatch_no_match m u h]
  · intro b s
    have hd : router_dispatch "GET".data "/api/v1/unknown".data = .notFound := by decide
    rw [serverStep, hd]
  · intro b s
    have hd : router_dispatch "PATCH".data "/api/v1/items".data = .notFound := by decide
    rw [serverStep, hd]

/-- Witness for C1 at concrete inputs: the exact-match collection route wins
for GET /api/v1/items, and a request matching no route receives the 404
envelope. -/
theorem C1_witness :
    router_dispatch "GET".data "/api/v1/items".data = .handled .getAllItems ∧
    serverStep "OPTIONS".data "/xyz".data none ⟨[], 1⟩ =
      (.errorResp 404 "Not Found"
        "The requested resource or endpoint was not found on this server.", ⟨[], 1⟩) :=
  ⟨C1_dispatch_first_match.2.1,
   C1_dispatch_first_match.2.2.2.1 "OPTIONS".data "/xyz".data none ⟨[], 1⟩ (by decide)⟩

/-- C2 fails as stated: the path below starts with the exact prefix and its
remainder is a non-empty digit sequence whose base-10 value 42 fits the int
range, so per the claim the extractor must return 42; the code returns the
invalid sentinel -1 because the remainder is 32 bytes long and overflows
the fixed 32-byte parse buffer. -/
theorem C2_counterexample :
    pfxItems.isPrefixOf "/api/v1/items/00000000000000000000000000000042".data = true ∧
    ("/api/v1/items/00000000000000000000000000000042".data.drop pfxItems.length ≠ []) ∧
    claimedIdOfRemainder
      ("/api/v1/items/00000000000000000000000000000042".data.drop pfxItems.length) = some 42 ∧
    get_item_id_from_uri "/api/v1/items/00000000000000000000000000000042".data = -1 :=
  ⟨by decide, by decide, by decide, by decide⟩

/-- C2 (amended): the identifier extractor is a pure function that returns
the parsed base-10 integer exactly when the path begins with the exact
prefix "/api/v1/items/", the remainder is non-empty and shorter than the
32-byte parse buffer, and (after the whitespace strtol skips) it is an
optional sign followed only by digits whose value fits the int range; it
returns the invalid sentinel otherwise. In particular /api/v1/items/42
parses to 42, and /api/v1/items/abc, /api/v1/items/ (empty remainder) and
/api/v1/items/99999999999999999999 (out of range) are invalid. -/
theorem C2_extractor_pure_characterization :
    (∀ uri : List Char, get_item_id_from_uri uri =
      if pfxItems.length < uri.length ∧ pfxItems.isPrefixOf uri ∧
          uri.length - pfxItems.length < 32 then
        (claimedIdOfRemainder (uri.drop pfxItems.length)).getD (-1)
      else -1) ∧
    get_item_id_from_uri "/api/v1/items/42".data = 42 ∧
    get_item_id_from_uri "/api/v1/items/abc".data = -1 ∧
    get_item_id_from_uri "/api/v1/items/".data = -1 ∧
    get_item_id_from_uri "/api/v1/items/99999999999999999999".data = -1 :=
  ⟨get_id_characterization, by decide, by decide, by decide, by decide⟩

/-! ### Helper lemmas: seeding, lookup, and digit strings -/

theorem init_dummy_data_empty (next : Int) :
    init_dummy_data ⟨[], next⟩ =
      ⟨[⟨next, "First Item".data, 100⟩, ⟨next + 1, "Second Item".data, 200⟩], next + 2⟩ := by
  norm_num [init_dummy_data, MAX_ITEMS]
  omega

theorem init_dummy_data_of_empty (s : StoreState) (h : s.items = []) :
    init_dummy_data s =
      ⟨[⟨s.next_item_id, "First Item".data, 100⟩,
        ⟨s.next_item_id + 1, "Second Item".data, 200⟩], s.next_item_id + 2⟩ := by
  obtain ⟨items, next⟩ := s
  simp only at h
  subst h
  exact init_dummy_data_empty next

theorem init_dummy_data_nonempty (s : StoreState) (h : s.items ≠ []) :
    init_dummy_data s = s := by
  rw [init_dummy_data, if_neg]
  simpa [List.length_eq_zero] using h

theorem init_dummy_data_ne_nil (s : StoreState) : (init_dummy_data s).items ≠ [] := by
  by_cases h : s.items = []
  · rw [init_dummy_data_of_empty s h]
    simp
  · rw [init_dummy_data_nonempty s h]
    exact h

theorem init_dummy_data_idem (s : StoreState) :
    init_dummy_data (init_dummy_data s) = init_dummy_data s :=
  init_dummy_data_nonempty _ (init_dummy_data_ne_nil s)

theorem init_ids_pos (s : StoreState) (h1 : ∀ it ∈ s.items, 1 ≤ it.id)
    (h2 : 1 ≤ s.next_item_id) : ∀ it ∈ (init_dummy_data s).items, 1 ≤ it.id := by
  intro it hit
  by_cases he : s.items = []
  · rw [init_dummy_data_of_empty s he] at hit
    simp only [List.mem_cons, List.mem_singleton] at hit
    rcases hit with h | h | h
    · rw [h]; exact h2
    · rw [h]; simp only; omega
    · exact absurd h (List.not_mem_nil it)
  · rw [init_dummy_data_nonempty s he] at hit
    exact h1 it hit

theorem find_item_by_id_none (x : Int) (l : List item_t) (h : ∀ it ∈ l, it.id ≠ x) :
    find_item_by_id x l = none := by
  induction l with
  | nil => rfl
  | cons it rest ih =>
    rw [find_item_by_id, if_neg (h it (List.mem_cons_self it rest))]
    exact ih fun a ha => h a (List.mem_cons_of_mem it ha)

theorem find_item_index_none (x : Int) (l : List item_t) (h : ∀ it ∈ l, it.id ≠ x) :
    find_item_index x l = none := by
  induction l with
  | nil => rfl
  | cons it rest ih =>
    rw [find_item_index, if_neg (h it (List.mem_cons_self it rest))]
    rw [ih fun a ha => h a (List.mem_cons_of_mem it ha)]
    rfl

theorem digitsVal_nonneg (ds : List Char) : ∀ acc : Int, 0 ≤ acc → 0 ≤ digitsVal ds acc := by
  induction ds with
  | nil => intro acc h; exact h
  | cons c rest ih =>
    intro acc h
    rw [digitsVal]
    apply ih
    have : (0 : Int) ≤ digitVal c := Int.ofNat_nonneg _
    omega

theorem mem_of_mem_dropWhile {p : Char → Bool} {c : Char} {l : List Char}
    (h : c ∈ l.dropWhile p) : c ∈ l :=
  (List.dropWhile_sublist p).subset h

theorem mem_of_mem_splitSign_snd {c : Char} {r : List Char} (h : c ∈ (splitSign r).2) : c ∈ r := by
  cases r with
  | nil => simp [splitSign] at h
  | cons a rest =>
    simp only [splitSign] at h
    split_ifs at h
    · exact List.mem_cons_of_mem a h
    · exact List.mem_cons_of_mem a h
    · exact h

theorem claimedId_none_of_no_digit (rem : List Char) (h : ∀ c ∈ rem, c.isDigit = false) :
    claimedIdOfRemainder rem = none := by
  unfold claimedIdOfRemainder
  rw [if_neg]
  intro hcontra
  rcases List.exists_mem_of_ne_nil _ hcontra.1 with ⟨c, hc⟩
  have hdig := List.all_eq_true.1 hcontra.2 c hc
  have hmem : c ∈ rem := mem_of_mem_dropWhile (mem_of_mem_splitSign_snd hc)
  rw [h c hmem] at hdig
  exact Bool.false_ne_true hdig

theorem pfx_append_facts (rem : List Char) (hne : rem ≠ []) :
    pfxItems.length < (pfxItems ++ rem).length ∧
    pfxItems.isPrefixOf (pfxItems ++ rem) = true ∧
    (pfxItems ++ rem).drop pfxItems.length = rem := by
  refine ⟨?_, ?_, List.drop_left _ _⟩
  · rw [List.length_append]
    have := List.length_pos.2 hne
    omega
  · rw [List.isPrefixOf_iff_prefix]
    exact List.prefix_append _ _

theorem get_id_neg_one_of_no_digit (rem : List Char) (hne : rem ≠ [])
    (h : ∀ c ∈ rem, c.isDigit = false) :
    get_item_id_from_uri (pfxItems ++ rem) = -1 := by
  obtain ⟨hlt, hpfx, hdrop⟩ := pfx_append_facts rem hne
  rw [get_id_characterization]
  by_cases h32 : (pfxItems ++ rem).length - pfxItems.length < 32
  · rw [if_pos ⟨hlt, hpfx, h32⟩, hdrop, claimedId_none_of_no_digit rem h]
    rfl
  · rw [if_neg]
    intro hc
    exact h32 hc.2.2

theorem get_id_neg_digits (ds : List Char) (hne : ds ≠ [])
    (hdig : ∀ c ∈ ds, c.isDigit = true) (hlen : ds.length ≤ 30)
    (hval : digitsVal ds 0 ≤ 2 ^ 31) :
    get_item_id_from_uri (pfxItems ++ '-' :: ds) = -(digitsVal ds 0) := by
  obtain ⟨hlt, hpfx, hdrop⟩ := pfx_append_facts ('-' :: ds) (by simp)
  rw [get_id_characterization]
  have h32 : (pfxItems ++ '-' :: ds).length - pfxItems.length < 32 := by
    rw [List.length_append]
    simp only [List.length_cons]
    omega
  rw [if_pos ⟨hlt, hpfx, h32⟩, hdrop]
  have hdw : ('-' :: ds).dropWhile isSpaceChar = '-' :: ds := by
    rw [List.dropWhile_cons, if_neg]
    simp [isSpaceChar]
  have hss : splitSign ('-' :: ds) = (-1, ds) := by
    simp [splitSign]
  have h0 : (0 : Int) ≤ digitsVal ds 0 := digitsVal_nonneg ds 0 le_rfl
  have h31 : (2 : Int) ^ 31 = 2147483648 := by norm_num
  have hclaim : claimedIdOfRemainder ('-' :: ds) = some (-(digitsVal ds 0)) := by
    unfold claimedIdOfRemainder
    rw [hdw, hss]
    simp only
    rw [if_pos ⟨hne, List.all_eq_true.2 hdig⟩, if_pos]
    · congr 1
      ring
    · rw [h31] at hval
      simp only [INT_MIN, INT_MAX, h31]
      omega
  rw [hclaim]
  rfl

/-- C3 fails as stated: the remainder -5 (path /api/v1/items + that
remainder) contains a non-digit character, so per the claim the handler must
answer 400 and never 404; but strtol accepts the sign, the extractor
returns -5 as a valid identifier, and the GET by-id handler on a freshly
seeded store answers 404 Not Found. -/
theorem C3_counterexample :
    (∃ c ∈ "-5".data, c.isDigit = false) ∧
    (handle_get_item_by_id "/api/v1/items/-5".data ⟨[], 1⟩).1 =
      .errorResp 404 "Not Found" "Item with specified ID not found." :=
  ⟨by decide, by rfl⟩

/-- The extractor returns the failure sentinel for every remainder it
rejects: one of 32 bytes or more (the parse buffer cap), or one whose
strtol parse fails or falls outside the int range, or the remainder -1
itself (whose valid parse coincides with the sentinel). -/
theorem get_id_neg_one_of_rejected (rem : List Char) (hne : rem ≠ [])
    (h : 32 ≤ rem.length ∨ (claimedIdOfRemainder rem).getD (-1) = -1) :
    get_item_id_from_uri (pfxItems ++ rem) = -1 := by
  obtain ⟨hlt, hpfx, hdrop⟩ := pfx_append_facts rem hne
  rw [get_id_characterization]
  rcases h with h | h
  · rw [if_neg]
    intro hc
    have h32 := hc.2.2
    rw [List.length_append] at h32
    omega
  · by_cases h32 : (pfxItems ++ rem).length - pfxItems.length < 32
    · rw [if_pos ⟨hlt, hpfx, h32⟩, hdrop]
      exact h
    · rw [if_neg (fun hc => h32 hc.2.2)]

/-- C3 (amended): for every GET, PUT, or DELETE request whose path starts
with /api/v1/items/ and whose non-empty remainder the identifier extractor
rejects — the remainder is 32 bytes or longer (the parse buffer cap), or it
is not an optional sign followed only by digits with an in-range value (no
digit at all like notanumber, trailing garbage like 12x, out of int range
like 99999999999999999999), or it is exactly -1 (the error sentinel) — the
handler responds 400 (Bad Request error envelope), never 404. Remainders
in strtol syntax such as -5 or +7 parse as identifiers instead and are
answered 404 when no such item exists. -/
theorem C3_rejected_remainder_gives_400 :
    (∀ (rem : List Char) (s : StoreState) (b : Option Json), rem ≠ [] →
      32 ≤ rem.length ∨ (claimedIdOfRemainder rem).getD (-1) = -1 →
      (handle_get_item_by_id (pfxItems ++ rem) s).1 =
        .errorResp 400 "Bad Request"
          "Invalid or missing item ID in URI. Expected format: /api/v1/items/\x7bid\x7d" ∧
      (handle_update_item (pfxItems ++ rem) b s).1 =
        .errorResp 400 "Bad Request"
          "Invalid or missing item ID in URI. Expected format: /api/v1/items/\x7bid\x7d" ∧
      (handle_delete_item (pfxItems ++ rem) s).1 =
        .errorResp 400 "Bad Request"
          "Invalid or missing item ID in URI. Expected format: /api/v1/items/\x7bid\x7d") ∧
    (∀ (rem : List Char) (s : StoreState) (b : Option Json), rem ≠ [] →
      (∀ c ∈ rem, c.isDigit = false) →
      (handle_get_item_by_id (pfxItems ++ rem) s).1 =
        .errorResp 400 "Bad Request"
          "Invalid or missing item ID in URI. Expected format: /api/v1/items/\x7bid\x7d" ∧
      (handle_update_item (pfxItems ++ rem) b s).1 =
        .errorResp 400 "Bad Request"
          "Invalid or missing item ID in URI. Expected format: /api/v1/items/\x7bid\x7d" ∧
      (handle_delete_item (pfxItems ++ rem) s).1 =
        .errorResp 400 "Bad Request"
          "Invalid or missing item ID in URI. Expected format: /api/v1/items/\x7bid\x7d") ∧
    (handle_get_item_by_id "/api/v1/items/notanumber".data ⟨[], 1⟩).1 =
      .errorResp 400 "Bad Request"
        "Invalid or missing item ID in URI. Expected format: /api/v1/items/\x7bid\x7d" ∧
    (handle_get_item_by_id "/api/v1/items/12x".data ⟨[], 1⟩).1 =
      .errorResp 400 "Bad Request"
        "Invalid or missing item ID in URI. Expected format: /api/v1/items/\x7bid\x7d" ∧
    (handle_get_item_by_id "/api/v1/items/99999999999999999999".data ⟨[], 1⟩).1 =
      .errorResp 400 "Bad Request"
        "Invalid or missing item ID in URI. Expected format: /api/v1/items/\x7bid\x7d" ∧
    (handle_get_item_by_id "/api/v1/items/00000000000000000000000000000042".data ⟨[], 1⟩).1 =
      .errorResp 400 "Bad Request"
        "Invalid or missing item ID in URI. Expected format: /api/v1/items/\x7bid\x7d" := by
  have main : ∀ (rem : List Char) (s : StoreState) (b : Option Json), rem ≠ [] →
      32 ≤ rem.length ∨ (claimedIdOfRemainder rem).getD (-1) = -1 →
      (handle_get_item_by_id (pfxItems ++ rem) s).1 =
        .errorResp 400 "Bad Request"
          "Invalid or missing item ID in URI. Expected format: /api/v1/items/\x7bid\x7d" ∧
      (handle_update_item (pfxItems ++ rem) b s).1 =
        .errorResp 400 "Bad Request"
          "Invalid or missing item ID in URI. Expected format: /api/v1/items/\x7bid\x7d" ∧
      (handle_delete_item (pfxItems ++ rem) s).1 =
        .errorResp 400 "Bad Request"
          "Invalid or missing item ID in URI. Expected format: /api/v1/items/\x7bid\x7d" := by
    intro rem s b hne h
    have hid := get_id_neg_one_of_rejected rem hne h
    refine ⟨?_, ?_, ?_⟩
    · simp [handle_get_item_by_id, hid]
    · simp [handle_update_item, hid]
    · simp [handle_delete_item, hid]
  refine ⟨main, ?_, by rfl, by rfl, by rfl, by rfl⟩
  intro rem s b hne hdf
  exact main rem s b hne (Or.inr (by rw [claimedId_none_of_no_digit rem hdf]; rfl))

/-- Witness for C3 at concrete inputs: the digit-containing rejected
remainder 12x and the digit-free rejected remainder xyz both get the 400
envelope from the GET by-id handler. -/
theorem C3_witness :
    ("12x".data ≠ [] ∧ (claimedIdOfRemainder "12x".data).getD (-1) = -1) ∧
    (handle_get_item_by_id (pfxItems ++ "12x".data) ⟨[], 5⟩).1 =
      .errorResp 400 "Bad Request"
        "Invalid or missing item ID in URI. Expected format: /api/v1/items/\x7bid\x7d" ∧
    (handle_get_item_by_id (pfxItems ++ "xyz".data) ⟨[], 5⟩).1 =
      .errorResp 400 "Bad Request"
        "Invalid or missing item ID in URI. Expected format: /api/v1/items/\x7bid\x7d" :=
  ⟨⟨by decide, by decide⟩,
   (C3_rejected_remainder_gives_400.1 "12x".data ⟨[], 5⟩ none (by decide)
     (Or.inr (by decide))).1,
   (C3_rejected_remainder_gives_400.2.1 "xyz".data ⟨[], 5⟩ none (by decide) (by decide)).1⟩

/-- C10 fails as stated: the 32-byte remainder -0000000000000000000000000000005 is an in-range
negative remainder other than -1 (it parses to -5 per strtol syntax), so
per the claim the by-id handlers must answer 404 on a store with positive
ids; but the remainder overflows the 32-byte parse buffer, the extractor
rejects it, and the GET by-id handler answers 400. -/
theorem C10_counterexample :
    claimedIdOfRemainder "-0000000000000000000000000000005".data = some (-5) ∧
    (32 : Nat) ≤ "-0000000000000000000000000000005".data.length ∧
    (handle_get_item_by_id ("/api/v1/items/-0000000000000000000000000000005".data) ⟨[], 1⟩).1 =
      .errorResp 400 "Bad Request"
        "Invalid or missing item ID in URI. Expected format: /api/v1/items/\x7bid\x7d" :=
  ⟨by decide, by decide, by rfl⟩

/-- C10 (amended): the extractor signals failure with the in-band sentinel
-1 and accepts strtol sign syntax. The by-id path with remainder -1
therefore always gets the 400 envelope from the by-id handlers (its valid
parse is indistinguishable from the sentinel); the remainder +7 parses to
7; for every other in-range negative remainder short enough for the
32-byte parse buffer (at most 31 bytes, such as -5) the extractor returns
the negative number as a valid identifier and the by-id handlers answer
404 Not Found on any store whose ids are positive (as assigned ids are);
and negative remainders at or beyond the buffer cap are rejected and get
400 instead. -/
theorem C10_sentinel_conflation :
    (∀ (s : StoreState) (b : Option Json),
      (handle_get_item_by_id "/api/v1/items/-1".data s).1 =
        .errorResp 400 "Bad Request"
          "Invalid or missing item ID in URI. Expected format: /api/v1/items/\x7bid\x7d" ∧
      (handle_update_item "/api/v1/items/-1".data b s).1 =
        .errorResp 400 "Bad Request"
          "Invalid or missing item ID in URI. Expected format: /api/v1/items/\x7bid\x7d" ∧
      (handle_delete_item "/api/v1/items/-1".data s).1 =
        .errorResp 400 "Bad Request"
          "Invalid or missing item ID in URI. Expected format: /api/v1/items/\x7bid\x7d") ∧
    get_item_id_from_uri "/api/v1/items/+7".data = 7 ∧
    (∀ ds : List Char, ds ≠ [] → (∀ c ∈ ds, c.isDigit = true) → ds.length ≤ 30 →
      digitsVal ds 0 ≤ 2 ^ 31 → digitsVal ds 0 ≠ 1 →
      get_item_id_from_uri (pfxItems ++ '-' :: ds) = -(digitsVal ds 0) ∧
      (∀ (s : StoreState) (b : Option Json), (∀ it ∈ s.items, 1 ≤ it.id) →
        1 ≤ s.next_item_id →
        (handle_get_item_by_id (pfxItems ++ '-' :: ds) s).1 =
          .errorResp 404 "Not Found" "Item with specified ID not found." ∧
        (handle_update_item (pfxItems ++ '-' :: ds) b s).1 =
          .errorResp 404 "Not Found" "Item with specified ID not found for update." ∧
        (handle_delete_item (pfxItems ++ '-' :: ds) s).1 =
          .errorResp 404 "Not Found" "Item with specified ID not found for deletion.")) ∧
    (∀ (ds : List Char) (s : StoreState) (b : Option Json), ds ≠ [] →
      (∀ c ∈ ds, c.isDigit = true) → 31 ≤ ds.length →
      (handle_get_item_by_id (pfxItems ++ '-' :: ds) s).1 =
        .errorResp 400 "Bad Request"
          "Invalid or missing item ID in URI. Expected format: /api/v1/items/\x7bid\x7d" ∧
      (handle_update_item (pfxItems ++ '-' :: ds) b s).1 =
        .errorResp 400 "Bad Request"
          "Invalid or missing item ID in URI. Expected format: /api/v1/items/\x7bid\x7d" ∧
      (handle_delete_item (pfxItems ++ '-' :: ds) s).1 =
        .errorResp 400 "Bad Request"
          "Invalid or missing item ID in URI. Expected format: /api/v1/items/\x7bid\x7d") := by
  refine ⟨?_, by decide, ?_, ?_⟩
  · intro s b
    have hid : get_item_id_from_uri "/api/v1/items/-1".data = -1 := by decide
    refine ⟨?_, ?_, ?_⟩
    · simp [handle_get_item_by_id, hid]
    · simp [handle_update_item, hid]
    · simp [handle_delete_item, hid]
  · intro ds hne hdig hlen hval hone
    have hid := get_id_neg_digits ds hne hdig hlen hval
    have h0 : (0 : Int) ≤ digitsVal ds 0 := digitsVal_nonneg ds 0 le_rfl
    have hsent : -(digitsVal ds 0) ≠ -1 := by omega
    refine ⟨hid, ?_⟩
    intro s b hpos hnext
    have hfindall : ∀ it ∈ (init_dummy_data s).items, it.id ≠ -(digitsVal ds 0) := by
      intro it hit
      have := init_ids_pos s hpos hnext it hit
      omega
    have hfb : find_item_by_id (-(digitsVal ds 0)) (init_dummy_data s).items = none :=
      find_item_by_id_none _ _ hfindall
    have hfi : find_item_index (-(digitsVal ds 0)) (init_dummy_data s).items = none :=
      find_item_index_none _ _ hfindall
    refine ⟨?_, ?_, ?_⟩
    · simp [handle_get_item_by_id, hid, hsent, hfb]
    · simp [handle_update_item, update_item_core, hid, hsent, hfi]
    · simp [handle_delete_item, delete_item_core, hid, hsent, hfi]
  · intro ds s b hne hdig hlen
    have hid : get_item_id_from_uri (pfxItems ++ '-' :: ds) = -1 :=
      get_id_neg_one_of_rejected ('-' :: ds) (by simp)
        (Or.inl (by simp only [List.length_cons]; omega))
    refine ⟨?_, ?_, ?_⟩
    · simp [handle_get_item_by_id, hid]
    · simp [handle_update_item, hid]
    · simp [handle_delete_item, hid]

/-- Witness for C10 at concrete inputs: the in-buffer remainder -5 yields
404 on an empty store, and the padded 32-byte negative remainder yields
400. -/
theorem C10_witness :
    get_item_id_from_uri (pfxItems ++ '-' :: "5".data) = -5 ∧
    (handle_get_item_by_id (pfxItems ++ '-' :: "5".data) ⟨[], 1⟩).1 =
      .errorResp 404 "Not Found" "Item with specified ID not found." ∧
    (handle_get_item_by_id (pfxItems ++ '-' :: "0000000000000000000000000000005".data) ⟨[], 1⟩).1 =
      .errorResp 400 "Bad Request"
        "Invalid or missing item ID in URI. Expected format: /api/v1/items/\x7bid\x7d" := by
  have h := C10_sentinel_conflation.2.2.1 "5".data (by decide) (by decide) (by decide)
    (by decide) (by decide)
  have h2 := C10_sentinel_conflation.2.2.2 "0000000000000000000000000000005".data ⟨[], 1⟩ none
    (by decide) (by decide) (by decide)
  exact ⟨h.1.trans (by decide), (h.2 ⟨[], 1⟩ none (by decide) (by decide)).1, h2.1⟩

/-- C4: every POST create request arriving while the store holds the full
capacity of MAX_ITEMS items is answered 507 Insufficient Storage, for every
request body (well-formed or not), and the store — items and next-id
counter alike — is left untouched. -/
theorem C4_create_at_capacity :
    ∀ (b : Option Json) (s : StoreState), s.items.length = MAX_ITEMS →
      handle_create_item b s =
        (.errorResp 507 "Insufficient Storage"
          "Cannot create more items, in-memory storage limit reached.", s) := by
  intro b s h
  have hne : s.items ≠ [] := by
    intro h0
    rw [h0] at h
    simp [MAX_ITEMS] at h
  simp only [handle_create_item, init_dummy_data_nonempty s hne]
  rw [if_pos (le_of_eq h.symm)]

/-- Witness for C4: a concrete full store rejects a well-formed create with
507 and stays unchanged. -/
theorem C4_witness :
    fullStore.items.length = MAX_ITEMS ∧
    handle_create_item (some (createBody "Widget".data 7)) fullStore =
      (.errorResp 507 "Insufficient Storage"
        "Cannot create more items, in-memory storage limit reached.", fullStore) :=
  ⟨by decide, C4_create_at_capacity (some (createBody "Widget".data 7)) fullStore (by decide)⟩

/-- C9: whenever any item handler begins on an empty store, the store is
first seeded with exactly the two fixed sample items (names First Item and
Second Item, values 100 and 200) with ids drawn from the shared next-id
counter; on a non-empty store seeding is a no-op; every item handler
factors through this seeding step, so it re-triggers after all items have
been deleted, as the final concrete conjunct shows: deleting both seeded
items and listing again resurrects the samples with fresh ids 3 and 4. -/
theorem C9_lazy_seeding :
    (∀ s : StoreState, s.items = [] →
      init_dummy_data s =
        ⟨[⟨s.next_item_id, "First Item".data, 100⟩,
          ⟨s.next_item_id + 1, "Second Item".data, 200⟩], s.next_item_id + 2⟩) ∧
    (∀ s : StoreState, s.items ≠ [] → init_dummy_data s = s) ∧
    (∀ s, handle_get_all_items s = handle_get_all_items (init_dummy_data s)) ∧
    (∀ uri s, handle_get_item_by_id uri s = handle_get_item_by_id uri (init_dummy_data s)) ∧
    (∀ b s, handle_create_item b s = handle_create_item b (init_dummy_data s)) ∧
    (∀ uri b s, handle_update_item uri b s = handle_update_item uri b (init_dummy_data s)) ∧
    (∀ uri s, handle_delete_item uri s = handle_delete_item uri (init_dummy_data s)) ∧
    (handle_get_all_items (handle_delete_item "/api/v1/items/2".data
        (handle_delete_item "/api/v1/items/1".data seededStore).2).2).2 =
      ⟨[⟨3, "First Item".data, 100⟩, ⟨4, "Second Item".data, 200⟩], 5⟩ := by
  refine ⟨init_dummy_data_of_empty, init_dummy_data_nonempty, ?_, ?_, ?_, ?_, ?_, by decide⟩
  · intro s
    simp only [handle_get_all_items, init_dummy_data_idem]
  · intro uri s
    simp only [handle_get_item_by_id, init_dummy_data_idem]
  · intro b s
    simp only [handle_create_item, init_dummy_data_idem]
  · intro uri b s
    simp only [handle_update_item, init_dummy_data_idem]
  · intro uri s
    simp only [handle_delete_item, init_dummy_data_idem]

/-- Witness for C9: seeding a concrete empty store with counter 7 yields the
two samples with ids 7 and 8, and seeding a non-empty store is a no-op. -/
theorem C9_witness :
    init_dummy_data ⟨[], 7⟩ =
      ⟨[⟨7, "First Item".data, 100⟩, ⟨8, "Second Item".data, 200⟩], 9⟩ ∧
    init_dummy_data seededStore = seededStore :=
  ⟨C9_lazy_seeding.1 ⟨[], 7⟩ rfl, C9_lazy_seeding.2.1 seededStore (by decide)⟩

/-! ### Helper lemmas: deletion and in-place update -/

theorem find_index_decomp (x : Int) (l : List item_t) (hmem : x ∈ l.map item_t.id) :
    ∃ l1 it l2, l = l1 ++ it :: l2 ∧ it.id = x ∧ (∀ a ∈ l1, a.id ≠ x) ∧
      find_item_index x l = some l1.length ∧ l.eraseIdx l1.length = l1 ++ l2 := by
  induction l with
  | nil => simp at hmem
  | cons it rest ih =>
    by_cases hx : it.id = x
    · refine ⟨[], it, rest, by simp, hx, by simp, ?_, by simp⟩
      rw [find_item_index, if_pos hx]
      rfl
    · have hmem2 : x ∈ rest.map item_t.id := by
        rcases List.mem_map.1 hmem with ⟨a, ha, haid⟩
        rcases List.mem_cons.1 ha with h | h
        · exact absurd (h ▸ haid) hx
        · exact List.mem_map.2 ⟨a, h, haid⟩
      rcases ih hmem2 with ⟨l1, a, l2, hdecomp, haid, hl1, hfind, herase⟩
      refine ⟨it :: l1, a, l2, by rw [List.cons_append, hdecomp], haid, ?_, ?_, ?_⟩
      · intro b hb
        rcases List.mem_cons.1 hb with h | h
        · rw [h]; exact hx
        · exact hl1 b h
      · rw [find_item_index, if_neg hx, hfind]
        rfl
      · simp only [List.length_cons, List.eraseIdx_cons_succ, herase]
        rfl

/-- C6: for every store state satisfying the id-uniqueness invariant and
every id present in the store, a successful delete of that id answers with
the success message and removes exactly the addressed entry, preserving the
relative order of the remaining items (the list splits as l1 ++ it :: l2
before and is exactly l1 ++ l2 after), and a subsequent find_by_id of the
same id yields not-found. -/
theorem C6_delete_then_find :
    ∀ (s : StoreState) (x : Int), (s.items.map item_t.id).Nodup →
      x ∈ s.items.map item_t.id →
      ∃ l1 it l2, s.items = l1 ++ it :: l2 ∧ it.id = x ∧
        delete_item_core x s =
          (.jsonLit 200 "\x7b \"message\": \"Item deleted successfully.\" \x7d",
            ⟨l1 ++ l2, s.next_item_id⟩) ∧
        find_item_by_id x (l1 ++ l2) = none := by
  intro s x hnodup hmem
  rcases find_index_decomp x s.items hmem with ⟨l1, it, l2, hdecomp, hid, hl1, hfind, herase⟩
  refine ⟨l1, it, l2, hdecomp, hid, ?_, ?_⟩
  · simp only [delete_item_core, hfind, herase]
  · apply find_item_by_id_none
    intro a ha
    rw [hdecomp, List.map_append, List.map_cons, List.nodup_append] at hnodup
    obtain ⟨hn1, hn2, hdisj⟩ := hnodup
    rw [List.nodup_cons] at hn2
    rcases List.mem_append.1 ha with h | h
    · intro heq
      exact (hdisj (List.mem_map.2 ⟨a, h, rfl⟩))
        (by rw [heq, ← hid]; exact List.mem_cons_self _ _)
    · intro heq
      exact hn2.1 (by rw [hid, ← heq]; exact List.mem_map.2 ⟨a, h, rfl⟩)

/-- Witness for C6: deleting id 1 from the concrete seeded store. -/
theorem C6_witness :
    ∃ l1 it l2, seededStore.items = l1 ++ it :: l2 ∧ it.id = 1 ∧
      delete_item_core 1 seededStore =
        (.jsonLit 200 "\x7b \"message\": \"Item deleted successfully.\" \x7d",
          ⟨l1 ++ l2, seededStore.next_item_id⟩) ∧
      find_item_by_id 1 (l1 ++ l2) = none :=
  C6_delete_then_find seededStore 1 (by decide) (by decide)

theorem find_index_lt_length (x : Int) (l : List item_t) :
    ∀ i : Nat, find_item_index x l = some i →
      i < l.length ∧ ∀ d, (l.getD i d).id = x := by
  induction l with
  | nil => intro i h; simp [find_item_index] at h
  | cons a rest ih =>
    intro i h
    by_cases hx : a.id = x
    · rw [find_item_index, if_pos hx] at h
      injection h with h
      subst h
      exact ⟨Nat.succ_pos _, fun d => by simpa [List.getD_cons_zero] using hx⟩
    · rw [find_item_index, if_neg hx] at h
      cases hfi : find_item_index x rest with
      | none => rw [hfi] at h; simp at h
      | some j =>
        rw [hfi] at h
        rw [Option.map_some'] at h
        injection h with h
        subst h
        have hj := ih j hfi
        exact ⟨Nat.succ_lt_succ hj.1, fun d => by
          simpa [List.getD_cons_succ] using hj.2 d⟩

theorem getD_set_ne {α : Type} (l : List α) (i j : Nat) (a d : α) (h : i ≠ j) :
    (l.set i a).getD j d = l.getD j d := by
  rw [List.getD_eq_getElem?_getD, List.getD_eq_getElem?_getD, List.getElem?_set_ne h]

theorem map_set_id (l : List item_t) :
    ∀ (i : Nat) (a : item_t), i < l.length → a.id = (l.getD i ⟨0, [], 0⟩).id →
      (l.set i a).map item_t.id = l.map item_t.id := by
  induction l with
  | nil => intro i a h _; simp at h
  | cons b rest ih =>
    intro i a h hid
    cases i with
    | zero =>
      rw [List.getD_cons_zero] at hid
      simp [List.set_cons_zero, hid]
    | succ n =>
      rw [List.getD_cons_succ] at hid
      rw [List.set_cons_succ, List.map_cons, List.map_cons,
        ih n a (Nat.lt_of_succ_lt_succ h) hid]

theorem update_core_preserves_ids (x : Int) (b : Option Json) (s : StoreState) :
    (update_item_core x b s).2.items.map item_t.id = s.items.map item_t.id ∧
    (update_item_core x b s).2.next_item_id = s.next_item_id := by
  unfold update_item_core
  cases hfi : find_item_index x s.items with
  | none => exact ⟨rfl, rfl⟩
  | some i =>
    cases b with
    | none => exact ⟨rfl, rfl⟩
    | some j =>
      dsimp only
      by_cases hng : cJSON_IsStringN (getObjectItemCS j "name".data) = true ∧
          64 ≤ (getStrVal (getObjectItemCS j "name".data)).length
      · rw [if_pos hng]
        exact ⟨rfl, rfl⟩
      · rw [if_neg hng]
        refine ⟨?_, rfl⟩
        apply map_set_id
        · exact (find_index_lt_length x s.items i hfi).1
        · by_cases h1 : cJSON_IsStringN (getObjectItemCS j "name".data) = true <;>
            by_cases h2 : cJSON_IsNumberN (getObjectItemCS j "value".data) = true <;>
              simp [h1, h2]

theorem update_core_frame (x : Int) (b : Option Json) (s : StoreState) (i j : Nat)
    (d : item_t) (hfi : find_item_index x s.items = some i) (hij : j ≠ i) :
    (update_item_core x b s).2.items.getD j d = s.items.getD j d := by
  unfold update_item_core
  rw [hfi]
  cases b with
  | none => rfl
  | some jj =>
    dsimp only
    by_cases hng : cJSON_IsStringN (getObjectItemCS jj "name".data) = true ∧
        64 ≤ (getStrVal (getObjectItemCS jj "name".data)).length
    · rw [if_pos hng]
    · rw [if_neg hng]
      exact getD_set_ne _ i j _ d (fun h => hij h.symm)

/-- C7: an update that supplies only the name field rewrites exactly the
name of the addressed item, leaving its value and id unchanged; an update
that supplies only the value field leaves the name unchanged; for every
body whatsoever, update never changes any id (the whole id sequence of the
store is preserved, and so is the item count and the next-id counter) and
never touches items at positions other than the addressed one. -/
theorem C7_partial_update :
    (∀ (s : StoreState) (x : Int) (i : Nat) (j : Json) (nm : List Char),
      find_item_index x s.items = some i →
      getObjectItemCS j "name".data = some (.jstr nm) → nm.length < 64 →
      getObjectItemCS j "value".data = none →
      update_item_core x (some j) s =
        (.jsonTree 200 (itemJson ⟨(s.items.getD i ⟨0, [], 0⟩).id, nm,
            (s.items.getD i ⟨0, [], 0⟩).value⟩),
          ⟨s.items.set i ⟨(s.items.getD i ⟨0, [], 0⟩).id, nm,
            (s.items.getD i ⟨0, [], 0⟩).value⟩, s.next_item_id⟩)) ∧
    (∀ (s : StoreState) (x : Int) (i : Nat) (j : Json) (v : Int),
      find_item_index x s.items = some i →
      getObjectItemCS j "name".data = none →
      getObjectItemCS j "value".data = some (.jnum v) →
      update_item_core x (some j) s =
        (.jsonTree 200 (itemJson ⟨(s.items.getD i ⟨0, [], 0⟩).id,
            (s.items.getD i ⟨0, [], 0⟩).name, v⟩),
          ⟨s.items.set i ⟨(s.items.getD i ⟨0, [], 0⟩).id,
            (s.items.getD i ⟨0, [], 0⟩).name, v⟩, s.next_item_id⟩)) ∧
    (∀ (x : Int) (b : Option Json) (s : StoreState),
      (update_item_core x b s).2.items.map item_t.id = s.items.map item_t.id ∧
      (update_item_core x b s).2.next_item_id = s.next_item_id) ∧
    (∀ (x : Int) (b : Option Json) (s : StoreState) (i k : Nat) (d : item_t),
      find_item_index x s.items = some i → k ≠ i →
      (update_item_core x b s).2.items.getD k d = s.items.getD k d) := by
  refine ⟨?_, ?_, update_core_preserves_ids, update_core_frame⟩
  · intro s x i j nm hfi hname hlen hval
    have hle : ¬64 ≤ nm.length := by omega
    simp [update_item_core, hfi, hname, hval, hle, cJSON_IsStringN, cJSON_IsNumberN, getStrVal]
  · intro s x i j v hfi hname hval
    simp [update_item_core, hfi, hname, hval, cJSON_IsStringN, cJSON_IsNumberN, getNumVal]

/-- Witness for C7: renaming item 1 of the seeded store leaves its value and
id as they were. -/
theorem C7_witness :
    update_item_core 1 (some (.jobj [("name".data, .jstr "Renamed".data)])) seededStore =
      (.jsonTree 200 (itemJson ⟨(seededStore.items.getD 0 ⟨0, [], 0⟩).id, "Renamed".data,
          (seededStore.items.getD 0 ⟨0, [], 0⟩).value⟩),
        ⟨seededStore.items.set 0 ⟨(seededStore.items.getD 0 ⟨0, [], 0⟩).id, "Renamed".data,
          (seededStore.items.getD 0 ⟨0, [], 0⟩).value⟩, seededStore.next_item_id⟩) :=
  C7_partial_update.1 seededStore 1 0 (.jobj [("name".data, .jstr "Renamed".data)])
    "Renamed".data (by decide) rfl (by decide) rfl

theorem set_getD_self {α : Type} (l : List α) :
    ∀ (i : Nat) (d : α), i < l.length → l.set i (l.getD i d) = l := by
  induction l with
  | nil => intro i d h; simp at h
  | cons a rest ih =>
    intro i d h
    cases i with
    | zero => rw [List.getD_cons_zero, List.set_cons_zero]
    | succ n =>
      rw [List.getD_cons_succ, List.set_cons_succ, ih n d (Nat.lt_of_succ_lt_succ h)]

/-- C8 fails as stated: a PUT body whose name field is present but ill-typed
(the number 123 instead of a string) must per the claim be answered 400
with the store unchanged; the update handler instead silently ignores the
ill-typed field and answers 200 with the item unchanged. -/
theorem C8_counterexample :
    handle_update_item "/api/v1/items/1".data (some (.jobj [("name".data, .jnum 123)]))
        seededStore =
      (.jsonTree 200 (itemJson ⟨1, "First Item".data, 100⟩), seededStore) := by rfl

/-- C8 (amended): the create handler rejects with 400 — leaving the store
unchanged beyond lazy seeding — every unparseable body, every parsed body
without a well-typed string name and numeric value, and every oversized
(64 bytes or more) well-typed name. The update handler on an existing item
rejects with 400 — store unchanged — an unparseable body and an oversized
well-typed name; but a parsed body whose recognized fields are missing or
ill-typed is NOT rejected: the fields are silently ignored and the handler
answers 200 with the item and the store unchanged. -/
theorem C8_body_validation :
    (∀ s : StoreState, (init_dummy_data s).items.length < MAX_ITEMS →
      handle_create_item none s =
        (.errorResp 400 "Bad Request" "Invalid JSON format in request body.",
          init_dummy_data s)) ∧
    (∀ (s : StoreState) (j : Json), (init_dummy_data s).items.length < MAX_ITEMS →
      cJSON_IsStringN (getObjectItemCS j "name".data) = false ∨
        cJSON_IsNumberN (getObjectItemCS j "value".data) = false →
      handle_create_item (some j) s =
        (.errorResp 400 "Bad Request"
          "Missing or invalid \x27name\x27 (string) or \x27value\x27 (number) in JSON body.",
          init_dummy_data s)) ∧
    (∀ (s : StoreState) (j : Json) (nm : List Char),
      (init_dummy_data s).items.length < MAX_ITEMS →
      getObjectItemCS j "name".data = some (.jstr nm) → 64 ≤ nm.length →
      cJSON_IsNumberN (getObjectItemCS j "value".data) = true →
      handle_create_item (some j) s =
        (.errorResp 400 "Bad Request" "Item name provided is too long (max 63 characters).",
          init_dummy_data s)) ∧
    (∀ (s : StoreState) (x : Int) (i : Nat), find_item_index x s.items = some i →
      update_item_core x none s =
        (.errorResp 400 "Bad Request" "Invalid JSON format in request body for update.", s)) ∧
    (∀ (s : StoreState) (x : Int) (i : Nat) (j : Json) (nm : List Char),
      find_item_index x s.items = some i →
      getObjectItemCS j "name".data = some (.jstr nm) → 64 ≤ nm.length →
      update_item_core x (some j) s =
        (.errorResp 400 "Bad Request" "Updated item name too long (max 63 characters).", s)) ∧
    (∀ (s : StoreState) (x : Int) (i : Nat) (j : Json),
      find_item_index x s.items = some i →
      cJSON_IsStringN (getObjectItemCS j "name".data) = false →
      cJSON_IsNumberN (getObjectItemCS j "value".data) = false →
      update_item_core x (some j) s =
        (.jsonTree 200 (itemJson (s.items.getD i ⟨0, [], 0⟩)), s)) := by
  refine ⟨?_, ?_, ?_, ?_, ?_, ?_⟩
  · intro s h
    simp only [handle_create_item]
    rw [if_neg (not_le.2 h)]
  · intro s j h hdisj
    simp only [handle_create_item]
    rw [if_neg (not_le.2 h)]
    rw [if_pos (by rcases hdisj with h1 | h1 <;> simp [h1])]
  · intro s j nm h hname hlen hnum
    simp only [handle_create_item]
    rw [if_neg (not_le.2 h)]
    rw [hname]
    rw [if_neg (by simp [cJSON_IsStringN, hnum]), if_pos (by simpa [getStrVal] using hlen)]
  · intro s x i hfi
    unfold update_item_core
    rw [hfi]
  · intro s x i j nm hfi hname hlen
    unfold update_item_core
    rw [hfi]
    dsimp only
    rw [hname]
    rw [if_pos ⟨by simp [cJSON_IsStringN], by simpa [getStrVal] using hlen⟩]
  · intro s x i j hfi h1 h2
    unfold update_item_core
    rw [hfi]
    dsimp only
    rw [if_neg (by simp [h1])]
    rw [h1, h2]
    simp only [Bool.false_eq_true, if_neg, if_false]
    rw [set_getD_self s.items i ⟨0, [], 0⟩ (find_index_lt_length x s.items i hfi).1]

/-- Witness for C8: create with an ill-typed name is rejected 400 on an
empty store; update with the same ill-typed body answers 200 and leaves the
seeded store untouched. -/
theorem C8_witness :
    handle_create_item (some (.jobj [("name".data, .jnum 123)])) ⟨[], 1⟩ =
      (.errorResp 400 "Bad Request"
        "Missing or invalid \x27name\x27 (string) or \x27value\x27 (number) in JSON body.",
        init_dummy_data ⟨[], 1⟩) ∧
    update_item_core 1 (some (.jobj [("name".data, .jnum 123)])) seededStore =
      (.jsonTree 200 (itemJson (seededStore.items.getD 0 ⟨0, [], 0⟩)), seededStore) :=
  ⟨C8_body_validation.2.1 ⟨[], 1⟩ (.jobj [("name".data, .jnum 123)]) (by decide) (Or.inl rfl),
   C8_body_validation.2.2.2.2.2 seededStore 1 0 (.jobj [("name".data, .jnum 123)])
     (by decide) rfl rfl⟩

/-! ### Helper lemmas: store invariant preservation -/

theorem storeInv_init (s : StoreState) (h : storeInv s) :
    storeInv (init_dummy_data s) ∧ s.next_item_id ≤ (init_dummy_data s).next_item_id := by
  by_cases he : s.items = []
  · rw [init_dummy_data_of_empty s he]
    refine ⟨⟨?_, ?_, ?_⟩, ?_⟩
    · simp [MAX_ITEMS]
    · simp
    · intro it hit
      simp only [List.mem_cons, List.mem_singleton] at hit
      rcases hit with h1 | h1 | h1
      · rw [h1]
        simp only
        omega
      · rw [h1]
        simp only
        omega
      · exact absurd h1 (List.not_mem_nil it)
    · simp only
      omega
  · rw [init_dummy_data_nonempty s he]
    exact ⟨h, le_rfl⟩

theorem handle_get_all_state (s : StoreState) :
    (handle_get_all_items s).2 = init_dummy_data s := rfl

theorem handle_get_by_id_state (uri : List Char) (s : StoreState) :
    (handle_get_item_by_id uri s).2 = init_dummy_data s := by
  simp only [handle_get_item_by_id]
  by_cases hid : get_item_id_from_uri uri = -1
  · rw [if_pos hid]
  · rw [if_neg hid]
    cases find_item_by_id (get_item_id_from_uri uri) (init_dummy_data s).items with
    | none => rfl
    | some it => rfl

theorem storeInv_create (b : Option Json) (s : StoreState) (h : storeInv s) :
    storeInv (handle_create_item b s).2 ∧
      s.next_item_id ≤ (handle_create_item b s).2.next_item_id := by
  obtain ⟨hinv1, hmono⟩ := storeInv_init s h
  simp only [handle_create_item]
  by_cases hcap : MAX_ITEMS ≤ (init_dummy_data s).items.length
  · rw [if_pos hcap]
    exact ⟨hinv1, hmono⟩
  · rw [if_neg hcap]
    cases b with
    | none => exact ⟨hinv1, hmono⟩
    | some j =>
      dsimp only
      by_cases h1 : (!cJSON_IsStringN (getObjectItemCS j "name".data) ||
          !cJSON_IsNumberN (getObjectItemCS j "value".data)) = true
      · rw [if_pos h1]
        exact ⟨hinv1, hmono⟩
      · rw [if_neg h1]
        by_cases h2 : 64 ≤ (getStrVal (getObjectItemCS j "name".data)).length
        · rw [if_pos h2]
          exact ⟨hinv1, hmono⟩
        · rw [if_neg h2]
          obtain ⟨ha, hb, hc⟩ := hinv1
          refine ⟨⟨?_, ?_, ?_⟩, ?_⟩
          · rw [List.length_append]
            simp only [List.length_singleton]
            omega
          · rw [List.map_append, List.nodup_append]
            refine ⟨hb, by simp, ?_⟩
            intro a hmem hmem2
            simp only [List.map_cons, List.map_nil, List.mem_singleton] at hmem2
            rcases List.mem_map.1 hmem with ⟨it, hit, hid⟩
            have := hc it hit
            rw [← hid] at hmem2
            omega
          · intro it hit
            rcases List.mem_append.1 hit with hx | hx
            · have := hc it hx
              simp only
              omega
            · simp only [List.mem_singleton] at hx
              rw [hx]
              simp only
              omega
          · simp only
            omega

theorem storeInv_update_core (x : Int) (b : Option Json) (s : StoreState) (h : storeInv s) :
    storeInv (update_item_core x b s).2 ∧
      s.next_item_id ≤ (update_item_core x b s).2.next_item_id := by
  obtain ⟨hids, hnext⟩ := update_core_preserves_ids x b s
  obtain ⟨ha, hb, hc⟩ := h
  refine ⟨⟨?_, ?_, ?_⟩, le_of_eq hnext.symm⟩
  · have hlen : (update_item_core x b s).2.items.length = s.items.length := by
      rw [← List.length_map (update_item_core x b s).2.items item_t.id, hids,
        List.length_map]
    omega
  · rw [hids]
    exact hb
  · intro it hit
    have hmem : it.id ∈ s.items.map item_t.id := by
      rw [← hids]
      exact List.mem_map.2 ⟨it, hit, rfl⟩
    rcases List.mem_map.1 hmem with ⟨a, hain, haid⟩
    rw [hnext, ← haid]
    exact hc a hain

theorem storeInv_update_handler (uri : List Char) (b : Option Json) (s : StoreState)
    (h : storeInv s) :
    storeInv (handle_update_item uri b s).2 ∧
      s.next_item_id ≤ (handle_update_item uri b s).2.next_item_id := by
  obtain ⟨h1, hm⟩ := storeInv_init s h
  simp only [handle_update_item]
  by_cases hid : get_item_id_from_uri uri = -1
  · rw [if_pos hid]
    exact ⟨h1, hm⟩
  · rw [if_neg hid]
    obtain ⟨h2, hm2⟩ := storeInv_update_core (get_item_id_from_uri uri) b (init_dummy_data s) h1
    exact ⟨h2, le_trans hm hm2⟩

theorem storeInv_delete_core (x : Int) (s : StoreState) (h : storeInv s) :
    storeInv (delete_item_core x s).2 ∧
      s.next_item_id ≤ (delete_item_core x s).2.next_item_id := by
  unfold delete_item_core
  cases hfi : find_item_index x s.items with
  | none => exact ⟨h, le_rfl⟩
  | some i =>
    dsimp only
    obtain ⟨ha, hb, hc⟩ := h
    have hsub : (s.items.eraseIdx i).Sublist s.items := List.eraseIdx_sublist s.items i
    refine ⟨⟨?_, ?_, ?_⟩, le_rfl⟩
    · exact le_trans hsub.length_le ha
    · exact List.Nodup.sublist (List.Sublist.map item_t.id hsub) hb
    · intro it hit
      exact hc it (hsub.subset hit)

theorem storeInv_delete_handler (uri : List Char) (s : StoreState) (h : storeInv s) :
    storeInv (handle_delete_item uri s).2 ∧
      s.next_item_id ≤ (handle_delete_item uri s).2.next_item_id := by
  obtain ⟨h1, hm⟩ := storeInv_init s h
  simp only [handle_delete_item]
  by_cases hid : get_item_id_from_uri uri = -1
  · rw [if_pos hid]
    exact ⟨h1, hm⟩
  · rw [if_neg hid]
    obtain ⟨h2, hm2⟩ := storeInv_delete_core (get_item_id_from_uri uri) (init_dummy_data s) h1
    exact ⟨h2, le_trans hm hm2⟩

/-! ### Helper lemmas: sequences of creates -/

theorem createBody_name (nm : List Char) (v : Int) :
    getObjectItemCS (createBody nm v) "name".data = some (.jstr nm) := rfl

theorem createBody_value (nm : List Char) (v : Int) :
    getObjectItemCS (createBody nm v) "value".data = some (.jnum v) := rfl

theorem handle_create_factor (b : Option Json) (s : StoreState) :
    handle_create_item b s = handle_create_item b (init_dummy_data s) := by
  simp only [handle_create_item, init_dummy_data_idem]

theorem createSeq_cons_factor (r : List Char × Int) (rest : List (List Char × Int))
    (s : StoreState) :
    createSeq (r :: rest) s = createSeq (r :: rest) (init_dummy_data s) := by
  obtain ⟨nm, v⟩ := r
  simp only [createSeq]
  rw [handle_create_factor]

theorem create_step_success (nm : List Char) (v : Int) (s : StoreState)
    (hne : s.items ≠ []) (hlen : nm.length < 64) (hcap : s.items.length < MAX_ITEMS) :
    handle_create_item (some (createBody nm v)) s =
      (.jsonTree 201 (itemJson ⟨s.next_item_id, nm, v⟩),
        ⟨s.items ++ [⟨s.next_item_id, nm, v⟩], s.next_item_id + 1⟩) := by
  simp only [handle_create_item, init_dummy_data_nonempty s hne]
  rw [if_neg (not_le.2 hcap)]
  rw [createBody_name, createBody_value]
  rw [if_neg (by simp [cJSON_IsStringN, cJSON_IsNumberN])]
  rw [if_neg (by simpa [getStrVal] using not_le.2 hlen)]
  rfl

theorem createSeq_spec : ∀ (reqs : List (List Char × Int)) (s : StoreState),
    storeInv s → s.items ≠ [] → (∀ r ∈ reqs, r.1.length < 64) →
    s.items.length + reqs.length ≤ MAX_ITEMS →
    (createSeq reqs s).1 = expectedCreated s.next_item_id reqs ∧
    storeInv (createSeq reqs s).2 ∧
    (createSeq reqs s).2.items ≠ [] ∧
    (createSeq reqs s).2.next_item_id = s.next_item_id + reqs.length ∧
    (createSeq reqs s).2.items.length = s.items.length + reqs.length := by
  intro reqs
  induction reqs with
  | nil =>
    intro s hinv hne _ _
    exact ⟨rfl, hinv, hne, by simp [createSeq], by simp [createSeq]⟩
  | cons r rest ih =>
    intro s hinv hne hnames hcap
    obtain ⟨nm, v⟩ := r
    have hlen : nm.length < 64 := hnames (nm, v) (List.mem_cons_self _ _)
    have hcap1 : s.items.length < MAX_ITEMS := by
      simp only [List.length_cons] at hcap
      omega
    have hstep := create_step_success nm v s hne hlen hcap1
    have hinvound := storeInv_create (some (createBody nm v)) s hinv
    rw [hstep] at hinvound
    have hinv2 : storeInv ⟨s.items ++ [⟨s.next_item_id, nm, v⟩], s.next_item_id + 1⟩ :=
      hinvound.1
    have hne2 : (⟨s.items ++ [⟨s.next_item_id, nm, v⟩], s.next_item_id + 1⟩ :
        StoreState).items ≠ [] := by
      simp
    have hnames2 : ∀ q ∈ rest, q.1.length < 64 :=
      fun q hq => hnames q (List.mem_cons_of_mem _ hq)
    have hcap2 : (⟨s.items ++ [⟨s.next_item_id, nm, v⟩], s.next_item_id + 1⟩ :
        StoreState).items.length + rest.length ≤ MAX_ITEMS := by
      dsimp only
      simp only [List.length_append, List.length_singleton, List.length_cons,
        List.length_nil] at hcap ⊢
      omega
    have hrest := ih ⟨s.items ++ [⟨s.next_item_id, nm, v⟩], s.next_item_id + 1⟩
      hinv2 hne2 hnames2 hcap2
    simp only [createSeq, hstep]
    refine ⟨?_, hrest.2.1, hrest.2.2.1, ?_, ?_⟩
    · simp only [expectedCreated]
      rw [hrest.1]
    · rw [hrest.2.2.2.1]
      try dsimp only
      simp only [List.length_cons]
      push_cast
      omega
    · rw [hrest.2.2.2.2]
      try dsimp only
      simp only [List.length_append, List.length_singleton, List.length_cons,
        List.length_nil]
      omega

theorem expectedCreated_lb (reqs : List (List Char × Int)) :
    ∀ (n0 : Int) (a : Int), a ∈ (expectedCreated n0 reqs).map createdId → n0 ≤ a := by
  induction reqs with
  | nil => intro n0 a h; simp [expectedCreated] at h
  | cons r rest ih =>
    intro n0 a h
    obtain ⟨nm, v⟩ := r
    simp only [expectedCreated, List.map_cons, List.mem_cons] at h
    rcases h with h | h
    · have hcid : createdId (HttpResponse.jsonTree 201 (itemJson ⟨n0, nm, v⟩)) = n0 := rfl
      omega
    · have := ih (n0 + 1) a h
      omega

theorem expectedCreated_pairwise (reqs : List (List Char × Int)) :
    ∀ n0 : Int, List.Pairwise (· < ·) ((expectedCreated n0 reqs).map createdId) := by
  induction reqs with
  | nil => intro n0; simp [expectedCreated]
  | cons r rest ih =>
    intro n0
    obtain ⟨nm, v⟩ := r
    simp only [expectedCreated, List.map_cons]
    refine List.Pairwise.cons ?_ (ih (n0 + 1))
    intro a ha
    have := expectedCreated_lb rest (n0 + 1) a ha
    have hcid : createdId (.jsonTree 201 (itemJson ⟨n0, nm, v⟩)) = n0 := rfl
    rw [hcid]
    omega

/-- C5: every store operation (lazy seeding, list, get-by-id, create,
update, delete) preserves the store invariants — at most MAX_ITEMS items,
pairwise distinct live ids, every live id strictly below the next-id
counter — and never decreases the next-id counter (together these keep the
counter strictly above every id ever assigned, ids of deleted items
included); and every sequence of successful creates up to capacity returns
the expected 201 responses whose ids are pairwise distinct and strictly
increasing in creation order. -/
theorem C5_store_invariants :
    (∀ s, storeInv s → storeInv (init_dummy_data s) ∧
      s.next_item_id ≤ (init_dummy_data s).next_item_id) ∧
    (∀ s, storeInv s → storeInv (handle_get_all_items s).2 ∧
      s.next_item_id ≤ (handle_get_all_items s).2.next_item_id) ∧
    (∀ (uri : List Char) (s : StoreState), storeInv s →
      storeInv (handle_get_item_by_id uri s).2 ∧
      s.next_item_id ≤ (handle_get_item_by_id uri s).2.next_item_id) ∧
    (∀ (b : Option Json) (s : StoreState), storeInv s →
      storeInv (handle_create_item b s).2 ∧
      s.next_item_id ≤ (handle_create_item b s).2.next_item_id) ∧
    (∀ (uri : List Char) (b : Option Json) (s : StoreState), storeInv s →
      storeInv (handle_update_item uri b s).2 ∧
      s.next_item_id ≤ (handle_update_item uri b s).2.next_item_id) ∧
    (∀ (uri : List Char) (s : StoreState), storeInv s →
      storeInv (handle_delete_item uri s).2 ∧
      s.next_item_id ≤ (handle_delete_item uri s).2.next_item_id) ∧
    (∀ (reqs : List (List Char × Int)) (s : StoreState), storeInv s →
      (∀ r ∈ reqs, r.1.length < 64) →
      (init_dummy_data s).items.length + reqs.length ≤ MAX_ITEMS →
      (createSeq reqs s).1 = expectedCreated (init_dummy_data s).next_item_id reqs ∧
      List.Pairwise (· < ·) ((createSeq reqs s).1.map createdId) ∧
      ((createSeq reqs s).1.map createdId).Nodup ∧
      storeInv (createSeq reqs s).2) := by
  refine ⟨storeInv_init, ?_, ?_, storeInv_create, storeInv_update_handler,
    storeInv_delete_handler, ?_⟩
  · intro s h
    rw [handle_get_all_state]
    exact storeInv_init s h
  · intro uri s h
    rw [handle_get_by_id_state]
    exact storeInv_init s h
  · intro reqs s hinv hnames hcap
    cases reqs with
    | nil =>
      exact ⟨rfl, by simp [createSeq], by simp [createSeq], hinv⟩
    | cons r rest =>
      rw [createSeq_cons_factor]
      have h0 := (storeInv_init s hinv).1
      have hne := init_dummy_data_ne_nil s
      have hspec := createSeq_spec (r :: rest) (init_dummy_data s) h0 hne hnames hcap
      refine ⟨hspec.1, ?_, ?_, hspec.2.1⟩
      · rw [hspec.1]
        exact expectedCreated_pairwise (r :: rest) (init_dummy_data s).next_item_id
      · rw [hspec.1]
        exact List.Pairwise.imp (fun h => ne_of_lt h)
          (expectedCreated_pairwise (r :: rest) (init_dummy_data s).next_item_id)

/-- Witness for C5: the invariants hold after a concrete create on the
seeded store, and a concrete two-request create sequence from the seeded
store returns exactly the expected 201 responses with distinct increasing
ids. -/
theorem C5_witness :
    storeInv seededStore ∧
    (storeInv (handle_create_item (some (createBody "W".data 7)) seededStore).2 ∧
      seededStore.next_item_id ≤
        (handle_create_item (some (createBody "W".data 7)) seededStore).2.next_item_id) ∧
    ((createSeq [("A".data, 1), ("B".data, 2)] seededStore).1 =
        expectedCreated (init_dummy_data seededStore).next_item_id
          [("A".data, 1), ("B".data, 2)] ∧
      List.Pairwise (· < ·)
        ((createSeq [("A".data, 1), ("B".data, 2)] seededStore).1.map createdId) ∧
      ((createSeq [("A".data, 1), ("B".data, 2)] seededStore).1.map createdId).Nodup ∧
      storeInv (createSeq [("A".data, 1), ("B".data, 2)] seededStore).2) :=
  ⟨⟨by decide, by decide, by decide⟩,
   C5_store_invariants.2.2.2.1 (some (createBody "W".data 7)) seededStore
     ⟨by decide, by decide, by decide⟩,
   C5_store_invariants.2.2.2.2.2.2 [("A".data, 1), ("B".data, 2)] seededStore
     ⟨by decide, by decide, by decide⟩ (by decide) (by decide)⟩
